import Mathlib

/-!
# Verification of the ODE-solver core

A shallow embedding of the numerical-integration core of the solver
(`streamlit_app.py`): the fixed-step explicit methods (Euler, RK2, RK4),
the linear multistep methods (Adams-Bashforth 4, Adams-Moulton 4
predictor-corrector), the implicit BDF2 method with its fixed-point
iteration, the two Verlet-family symplectic steppers, the adaptive RKF45
loop, and the module-level input validation / dispatch logic.

The source works with NumPy float arrays.  The embedding idealises the
arithmetic: the fixed-step methods are stated over an arbitrary
`Module ℚ` (state vectors) with exact rational scalars, and the adaptive
RKF45 method — whose step control uses a Euclidean norm and a fractional
power — is stated over a real normed space.  Both keep the exact
stage coefficients and control flow of the source.

Every fixed-step method in the source fills its time array by the same
loop `t[i+1] = t[i] + h` starting from `t[0] = t0` (accumulated by
repeated addition); this shared accumulation is embedded once as `tgrid`.
-/

namespace OdeSolver

/-- The accumulated time grid `t[0] = t0`, `t[i+1] = t[i] + h`, shared by
every fixed-step stepper in the source (each repeats the same loop). -/
def tgrid (t0 h : ℚ) : ℕ → ℚ
  | 0 => t0
  | i + 1 => tgrid t0 h i + h

section FixedStep

variable {V : Type} [AddCommGroup V] [Module ℚ V]

/-- Row `i` of the trajectory array of `euler`:
`Y[0] = y0`, `Y[i+1] = Y[i] + h * f(t[i], Y[i])`. -/
def eulerY (f : ℚ → V → V) (t0 : ℚ) (y0 : V) (h : ℚ) : ℕ → V
  | 0 => y0
  | i + 1 => eulerY f t0 y0 h i + h • f (tgrid t0 h i) (eulerY f t0 y0 h i)

/-- `euler(f, t0, y0, h, n_steps)`: the returned `(t, Y)` pair, rows
`0 .. n_steps`. -/
def euler (f : ℚ → V → V) (t0 : ℚ) (y0 : V) (h : ℚ) (n_steps : ℕ) :
    List ℚ × List V :=
  ((List.range (n_steps + 1)).map (tgrid t0 h),
   (List.range (n_steps + 1)).map (eulerY f t0 y0 h))

/-- Row `i` of the trajectory array of `rk2` (midpoint method):
`k1 = f(t_i, Y_i)`, `k2 = f(t_i + h/2, Y_i + (h/2)k1)`,
`Y[i+1] = Y[i] + h k2`. -/
def rk2Y (f : ℚ → V → V) (t0 : ℚ) (y0 : V) (h : ℚ) : ℕ → V
  | 0 => y0
  | i + 1 =>
    let y := rk2Y f t0 y0 h i
    let t := tgrid t0 h i
    let k1 := f t y
    let k2 := f (t + h / 2) (y + (h / 2) • k1)
    y + h • k2

/-- `rk2(f, t0, y0, h, n_steps)`: the returned `(t, Y)` pair. -/
def rk2 (f : ℚ → V → V) (t0 : ℚ) (y0 : V) (h : ℚ) (n_steps : ℕ) :
    List ℚ × List V :=
  ((List.range (n_steps + 1)).map (tgrid t0 h),
   (List.range (n_steps + 1)).map (rk2Y f t0 y0 h))

/-- Row `i` of the trajectory array of `rk4` (classical 4-stage method). -/
def rk4Y (f : ℚ → V → V) (t0 : ℚ) (y0 : V) (h : ℚ) : ℕ → V
  | 0 => y0
  | i + 1 =>
    let y := rk4Y f t0 y0 h i
    let t := tgrid t0 h i
    let k1 := f t y
    let k2 := f (t + h / 2) (y + (h / 2) • k1)
    let k3 := f (t + h / 2) (y + (h / 2) • k2)
    let k4 := f (t + h) (y + h • k3)
    y + (h / 6) • (k1 + (2 : ℚ) • k2 + (2 : ℚ) • k3 + k4)

/-- `rk4(f, t0, y0, h, n_steps)`: the returned `(t, Y)` pair. -/
def rk4 (f : ℚ → V → V) (t0 : ℚ) (y0 : V) (h : ℚ) (n_steps : ℕ) :
    List ℚ × List V :=
  ((List.range (n_steps + 1)).map (tgrid t0 h),
   (List.range (n_steps + 1)).map (rk4Y f t0 y0 h))

/-- Row `i` of the trajectory array of `adams_bashforth`: the first three
steps repeat the RK4 stage formulas (the source duplicates those four
lines as its bootstrap), and from `i ≥ 3` on the explicit 4-step
Adams-Bashforth recurrence is used.  Rows beyond `n_steps` are never read
by the wrapper, matching the source's `if i >= n_steps: break` guard. -/
def abY (f : ℚ → V → V) (t0 : ℚ) (y0 : V) (h : ℚ) : ℕ → V
  | 0 => y0
  | i + 1 =>
    if i < 3 then
      let y := abY f t0 y0 h i
      let t := tgrid t0 h i
      let k1 := f t y
      let k2 := f (t + h / 2) (y + (h / 2) • k1)
      let k3 := f (t + h / 2) (y + (h / 2) • k2)
      let k4 := f (t + h) (y + h • k3)
      y + (h / 6) • (k1 + (2 : ℚ) • k2 + (2 : ℚ) • k3 + k4)
    else
      let f1 := f (tgrid t0 h i) (abY f t0 y0 h i)
      let f2 := f (tgrid t0 h (i - 1)) (abY f t0 y0 h (i - 1))
      let f3 := f (tgrid t0 h (i - 2)) (abY f t0 y0 h (i - 2))
      let f4 := f (tgrid t0 h (i - 3)) (abY f t0 y0 h (i - 3))
      abY f t0 y0 h i +
        (h / 24) • ((55 : ℚ) • f1 - (59 : ℚ) • f2 + (37 : ℚ) • f3 - (9 : ℚ) • f4)

/-- `adams_bashforth(f, t0, y0, h, n_steps)`: the returned `(t, Y)` pair. -/
def adams_bashforth (f : ℚ → V → V) (t0 : ℚ) (y0 : V) (h : ℚ) (n_steps : ℕ) :
    List ℚ × List V :=
  ((List.range (n_steps + 1)).map (tgrid t0 h),
   (List.range (n_steps + 1)).map (abY f t0 y0 h))

/-- Row `i` of the trajectory array of `adams_moulton`: the same RK4
bootstrap as `adams_bashforth`; from `i ≥ 3` on, the Adams-Bashforth
predictor followed by a single Adams-Moulton corrector pass. -/
def amY (f : ℚ → V → V) (t0 : ℚ) (y0 : V) (h : ℚ) : ℕ → V
  | 0 => y0
  | i + 1 =>
    if i < 3 then
      let y := amY f t0 y0 h i
      let t := tgrid t0 h i
      let k1 := f t y
      let k2 := f (t + h / 2) (y + (h / 2) • k1)
      let k3 := f (t + h / 2) (y + (h / 2) • k2)
      let k4 := f (t + h) (y + h • k3)
      y + (h / 6) • (k1 + (2 : ℚ) • k2 + (2 : ℚ) • k3 + k4)
    else
      let f1 := f (tgrid t0 h i) (amY f t0 y0 h i)
      let f2 := f (tgrid t0 h (i - 1)) (amY f t0 y0 h (i - 1))
      let f3 := f (tgrid t0 h (i - 2)) (amY f t0 y0 h (i - 2))
      let f4 := f (tgrid t0 h (i - 3)) (amY f t0 y0 h (i - 3))
      let y_pred := amY f t0 y0 h i +
        (h / 24) • ((55 : ℚ) • f1 - (59 : ℚ) • f2 + (37 : ℚ) • f3 - (9 : ℚ) • f4)
      let f_pred := f (tgrid t0 h i + h) y_pred
      amY f t0 y0 h i +
        (h / 24) • ((9 : ℚ) • f_pred + (19 : ℚ) • f1 - (5 : ℚ) • f2 + f3)

/-- `adams_moulton(f, t0, y0, h, n_steps)`: the returned `(t, Y)` pair. -/
def adams_moulton (f : ℚ → V → V) (t0 : ℚ) (y0 : V) (h : ℚ) (n_steps : ℕ) :
    List ℚ × List V :=
  ((List.range (n_steps + 1)).map (tgrid t0 h),
   (List.range (n_steps + 1)).map (amY f t0 y0 h))

/-- Row `i` of the trajectory array of `bdf2`: one explicit Euler step for
`Y[1]` (guarded by `n_steps > 0` in the source; the wrapper's truncation
to `n_steps + 1` rows realises that guard here), then for each later row
the implicit BDF2 relation solved by exactly three unconditional
fixed-point iterations started at `Y[i]`. -/
def bdf2Y (f : ℚ → V → V) (t0 : ℚ) (y0 : V) (h : ℚ) : ℕ → V
  | 0 => y0
  | 1 => y0 + h • f t0 y0
  | i + 2 =>
    let yi := bdf2Y f t0 y0 h (i + 1)
    let yim1 := bdf2Y f t0 y0 h i
    let g := fun y =>
      (3 : ℚ)⁻¹ • ((4 : ℚ) • yi - yim1 + (2 * h) • f (tgrid t0 h (i + 1) + h) y)
    g (g (g yi))

/-- `bdf2(f, t0, y0, h, n_steps)`: the returned `(t, Y)` pair. -/
def bdf2 (f : ℚ → V → V) (t0 : ℚ) (y0 : V) (h : ℚ) (n_steps : ℕ) :
    List ℚ × List V :=
  ((List.range (n_steps + 1)).map (tgrid t0 h),
   (List.range (n_steps + 1)).map (bdf2Y f t0 y0 h))

end FixedStep

section Symplectic

/-- One step of `stormer_verlet` on the loop state `(t, q, p)`:
half-kick of the momentum, full position update with the half-stepped
momentum, second half-kick with the force at the new position, then
`t + h`.  `f` is the scalar acceleration `a(t, q)`. -/
def svStep (f : ℚ → ℚ → ℚ) (h : ℚ) : ℚ × ℚ × ℚ → ℚ × ℚ × ℚ
  | (t, q, p) =>
    let p_half := p + (1 / 2) * h * f t q
    let q_next := q + h * p_half
    let p_next := p_half + (1 / 2) * h * f (t + h) q_next
    (t + h, q_next, p_next)

/-- `stormer_verlet(f, t0, y0, h, n_steps)`: the returned `(t, Y)` pair,
rows being the iterates of `svStep` from `(t0, q0, p0)`. -/
def stormer_verlet (f : ℚ → ℚ → ℚ) (t0 q0 p0 h : ℚ) (n_steps : ℕ) :
    List ℚ × List (ℚ × ℚ) :=
  ((List.range (n_steps + 1)).map (fun i => (svStep f h)^[i] (t0, q0, p0) |>.1),
   (List.range (n_steps + 1)).map (fun i => (svStep f h)^[i] (t0, q0, p0) |>.2))

/-- Bounds-checked write of a list cell, modelling a NumPy element
assignment `t[i] = v`: `none` exactly when `i` is out of range
(an `IndexError` in the source). -/
def lset {α : Type} : List α → ℕ → α → Option (List α)
  | [], _, _ => none
  | _ :: xs, 0, v => some (v :: xs)
  | x :: xs, i + 1, v => (lset xs i v).map (x :: ·)

/-- Bounds-checked write of the first component of row `i`, modelling the
NumPy element assignment `Y[i, 0] = v`. -/
def lsetFst : List (ℚ × ℚ) → ℕ → ℚ → Option (List (ℚ × ℚ))
  | [], _, _ => none
  | r :: xs, 0, v => some ((v, r.2) :: xs)
  | r :: xs, i + 1, v => (lsetFst xs i v).map (r :: ·)

/-- Bounds-checked write of the second component of row `i`, modelling the
NumPy element assignment `Y[i, 1] = v`. -/
def lsetSnd : List (ℚ × ℚ) → ℕ → ℚ → Option (List (ℚ × ℚ))
  | [], _, _ => none
  | r :: xs, 0, v => some ((r.1, v) :: xs)
  | r :: xs, i + 1, v => (lsetSnd xs i v).map (r :: ·)

/-- The loop `for i in range(1, n_steps)` of `verlet`, threading the
bounds-checked time and trajectory arrays. -/
def verletLoop (f : ℚ → ℚ → ℚ) (h : ℚ) (n_steps : ℕ) :
    ℕ → List ℚ → List (ℚ × ℚ) → Option (List ℚ × List (ℚ × ℚ))
  | i, t, Y =>
    if hi : i < n_steps then do
      let ti ← t[i]?
      let ri ← Y[i]?
      let a_i := f ti ri.1
      let Y ← lsetSnd Y (i + 1) (ri.2 + h * a_i)
      let rn ← Y[i + 1]?
      let Y ← lsetFst Y (i + 1) (ri.1 + h * rn.2)
      let t ← lset t (i + 1) (ti + h)
      verletLoop f h n_steps (i + 1) t Y
    else
      some (t, Y)
  termination_by i => n_steps - i

/-- `verlet(f, t0, y0, h, n_steps)` with every array access
bounds-checked: the source unconditionally writes the bootstrap rows
`Y[1, 1]`, `Y[1, 0]`, `t[1]` into arrays of length `n_steps + 1`, so for
`n_steps = 0` the first of these writes is out of range (`none` here, an
`IndexError` in the source). -/
def verlet (f : ℚ → ℚ → ℚ) (t0 q0 p0 h : ℚ) (n_steps : ℕ) :
    Option (List ℚ × List (ℚ × ℚ)) := do
  let t := List.replicate (n_steps + 1) (0 : ℚ)
  let Y := List.replicate (n_steps + 1) ((0 : ℚ), (0 : ℚ))
  let t ← lset t 0 t0
  let Y0 ← lset Y 0 (q0, p0)
  let tv0 ← t[0]?
  let r0 ← Y0[0]?
  let a0 := f tv0 r0.1
  let Y1 ← lsetSnd Y0 1 (r0.2 + (1 / 2) * h * a0)
  let r1 ← Y1[1]?
  let Y2 ← lsetFst Y1 1 (r0.1 + h * r1.2)
  let t1 ← lset t 1 (tv0 + h)
  verletLoop f h n_steps 1 t1 Y2

end Symplectic

section Adaptive

variable {W : Type} [NormedAddCommGroup W] [NormedSpace ℝ W]

/-- RKF45 stage `k1 = f(t_i, y_i)`. -/
noncomputable def rkfk1 (f : ℝ → W → W) (ti : ℝ) (yi : W) (h : ℝ) : W :=
  let _ := h
  f ti yi

/-- RKF45 stage `k2 = f(t_i + h/4, y_i + h k1/4)`. -/
noncomputable def rkfk2 (f : ℝ → W → W) (ti : ℝ) (yi : W) (h : ℝ) : W :=
  f (ti + h / 4) (yi + (h / 4) • rkfk1 f ti yi h)

/-- RKF45 stage `k3 = f(t_i + 3h/8, y_i + h(3k1/32 + 9k2/32))`. -/
noncomputable def rkfk3 (f : ℝ → W → W) (ti : ℝ) (yi : W) (h : ℝ) : W :=
  f (ti + 3 * h / 8)
    (yi + h • ((3 / 32 : ℝ) • rkfk1 f ti yi h + (9 / 32 : ℝ) • rkfk2 f ti yi h))

/-- RKF45 stage `k4`, with the `1932/2197, -7200/2197, 7296/2197` row. -/
noncomputable def rkfk4 (f : ℝ → W → W) (ti : ℝ) (yi : W) (h : ℝ) : W :=
  f (ti + 12 * h / 13)
    (yi + h • ((1932 / 2197 : ℝ) • rkfk1 f ti yi h - (7200 / 2197 : ℝ) • rkfk2 f ti yi h +
      (7296 / 2197 : ℝ) • rkfk3 f ti yi h))

/-- RKF45 stage `k5`, with the `439/216, -8, 3680/513, -845/4104` row. -/
noncomputable def rkfk5 (f : ℝ → W → W) (ti : ℝ) (yi : W) (h : ℝ) : W :=
  f (ti + h)
    (yi + h • ((439 / 216 : ℝ) • rkfk1 f ti yi h - (8 : ℝ) • rkfk2 f ti yi h +
      (3680 / 513 : ℝ) • rkfk3 f ti yi h - (845 / 4104 : ℝ) • rkfk4 f ti yi h))

/-- RKF45 stage `k6`, with the `-8/27, 2, -3544/2565, 1859/4104, -11/40` row. -/
noncomputable def rkfk6 (f : ℝ → W → W) (ti : ℝ) (yi : W) (h : ℝ) : W :=
  f (ti + h / 2)
    (yi + h • ((-(8 / 27) : ℝ) • rkfk1 f ti yi h + (2 : ℝ) • rkfk2 f ti yi h -
      (3544 / 2565 : ℝ) • rkfk3 f ti yi h + (1859 / 4104 : ℝ) • rkfk4 f ti yi h -
      (11 / 40 : ℝ) • rkfk5 f ti yi h))

/-- The 4th-order RKF45 estimate
`y4 = y_i + h(25k1/216 + 1408k3/2565 + 2197k4/4104 - k5/5)`. -/
noncomputable def rkfY4 (f : ℝ → W → W) (ti : ℝ) (yi : W) (h : ℝ) : W :=
  yi + h • ((25 / 216 : ℝ) • rkfk1 f ti yi h + (1408 / 2565 : ℝ) • rkfk3 f ti yi h +
    (2197 / 4104 : ℝ) • rkfk4 f ti yi h - (1 / 5 : ℝ) • rkfk5 f ti yi h)

/-- The 5th-order RKF45 estimate
`y5 = y_i + h(16k1/135 + 6656k3/12825 + 28561k4/56430 - 9k5/50 + 2k6/55)`. -/
noncomputable def rkfY5 (f : ℝ → W → W) (ti : ℝ) (yi : W) (h : ℝ) : W :=
  yi + h • ((16 / 135 : ℝ) • rkfk1 f ti yi h + (6656 / 12825 : ℝ) • rkfk3 f ti yi h +
    (28561 / 56430 : ℝ) • rkfk4 f ti yi h - (9 / 50 : ℝ) • rkfk5 f ti yi h +
    (2 / 55 : ℝ) • rkfk6 f ti yi h)

/-- The `while t[-1] < t_final` loop of `rkf45`, with an explicit fuel
bound on the number of iterations (`none` when the fuel runs out).  The
state is the most recent accepted point `cur`, the earlier points `past`
in reverse order, and the current step size `h`; the source's appended
lists are recovered as `(cur :: past).reverse` on exit. -/
noncomputable def rkfLoop (f : ℝ → W → W) (t_final tol : ℝ) :
    ℕ → ℝ × W → List (ℝ × W) → ℝ → Option (List (ℝ × W))
  | 0, _, _, _ => none
  | fuel + 1, cur, past, h =>
    if cur.1 < t_final then
      let h2 := if t_final < cur.1 + h then t_final - cur.1 else h
      let y4 := rkfY4 f cur.1 cur.2 h2
      let y5 := rkfY5 f cur.1 cur.2 h2
      let err := ‖y5 - y4‖
      if err < tol then
        rkfLoop f t_final tol fuel (cur.1 + h2, y5) (cur :: past)
          (h2 * (if 0 < err then min 2 ((tol / err) ^ ((1 : ℝ) / 4)) else 2))
      else
        rkfLoop f t_final tol fuel cur past
          (h2 * max (1 / 10) ((9 / 10) * (tol / err) ^ ((1 : ℝ) / 4)))
    else
      some ((cur :: past).reverse)

/-- `rkf45(f, t0, y0, t_final, h_init, tol)` run with the given iteration
fuel: the returned trajectory as a list of `(time, state)` rows. -/
noncomputable def rkf45 (f : ℝ → W → W) (t0 : ℝ) (y0 : W)
    (t_final h_init tol : ℝ) (fuel : ℕ) : Option (List (ℝ × W)) :=
  rkfLoop f t_final tol fuel (t0, y0) [] h_init

/-- One iteration of the `rkf45` loop body as a transformer of the loop
state `(cur, past, h)` — exactly the body that `rkfLoop` runs while
`cur.1 < t_final`. -/
noncomputable def rkfBody (f : ℝ → W → W) (t_final tol : ℝ)
    (s : (ℝ × W) × List (ℝ × W) × ℝ) : (ℝ × W) × List (ℝ × W) × ℝ :=
  let cur := s.1
  let past := s.2.1
  let h := s.2.2
  let h2 := if t_final < cur.1 + h then t_final - cur.1 else h
  let y4 := rkfY4 f cur.1 cur.2 h2
  let y5 := rkfY5 f cur.1 cur.2 h2
  let err := ‖y5 - y4‖
  if err < tol then
    ((cur.1 + h2, y5), cur :: past,
      h2 * (if 0 < err then min 2 ((tol / err) ^ ((1 : ℝ) / 4)) else 2))
  else
    (cur, past, h2 * max (1 / 10) ((9 / 10) * (tol / err) ^ ((1 : ℝ) / 4)))

/-- The sum of the absolute weight differences of the embedded RKF45
pair: for a derivative bounded by `M`, the error estimate of a step of
size `h ≥ 0` is at most `h * errC * M`. -/
noncomputable def errC : ℝ :=
  |(16 / 135 - 25 / 216 : ℝ)| + |(6656 / 12825 - 1408 / 2565 : ℝ)| +
  |(28561 / 56430 - 2197 / 4104 : ℝ)| + |(1 / 5 - 9 / 50 : ℝ)| + |(2 / 55 : ℝ)|

/-- The acceptance threshold of the step-control analysis: any attempted
step of size at most `rkfHstar tol M` is accepted when the derivative is
bounded by `M`. -/
noncomputable def rkfHstar (tol M : ℝ) : ℝ := tol / (errC * M + 1)

end Adaptive

section Dispatch

/-- The error outcomes of the module-level validation: `configuration`
for the failed dimension check of `f` (the source's
"ODE function must return n derivatives" stop), `degenerate` for the
failed `n_steps <= 0` check (the source's
"Invalid time interval or step size" stop). -/
inductive SolveError : Type
  | configuration : SolveError
  | degenerate : SolveError
deriving DecidableEq

/-- The module-level validation and step-count computation that every
integration run passes through before a stepper is invoked: first the
dimension check `len(f(0, zeros(n))) != n` (note the literal time `0`),
then `n_steps = ceil((t_final - t0)/h)` with the `n_steps <= 0` check.
On success the computed step count is handed to the dispatch. -/
def pipeline (f : ℚ → List ℚ → List ℚ) (t0 t_final h : ℚ) (y0 : List ℚ) :
    Except SolveError ℕ :=
  let n := y0.length
  if (f 0 (List.replicate n 0)).length ≠ n then .error .configuration
  else
    let steps : ℤ := ⌈(t_final - t0) / h⌉
    if steps ≤ 0 then .error .degenerate
    else .ok steps.toNat

end Dispatch

section WitnessInputs

/-- A concrete derivative function used to witness C1. -/
def vf1 (t y : ℚ) : ℚ := t + y

/-- A concrete derivative function used to witness C5. -/
def vf5 (t y : ℚ) : ℚ := y

/-- A concrete derivative function used to witness C6. -/
def vf6 (t y : ℚ) : ℚ := t - y

/-- A concrete derivative function used to witness C7. -/
def vf7 (t y : ℚ) : ℚ := y

/-- A concrete scalar acceleration (harmonic oscillator) used to witness
C8. -/
def svf (t q : ℚ) : ℚ := -q

/-- The zero derivative function on the real line, used to witness the
adaptive-stepper claims. -/
def rf0 (t y : ℝ) : ℝ := 0

end WitnessInputs

/-! ## General lemmas about the trajectory lists -/

lemma getD_range_map {α : Type} (g : ℕ → α) (d : α) {n i : ℕ} (hi : i < n) :
    ((List.range n).map g).getD i d = g i := by
  rw [List.getD_eq_getElem?_getD, List.getElem?_map, List.getElem?_range hi]
  rfl

section Claim1

variable {V : Type} [AddCommGroup V] [Module ℚ V]

/-- C1: for every derivative function `f`, initial time `t0`, initial
vector `y0`, step size `h` and step count `n_steps ≥ 1`, each of the
fixed-step methods `euler`, `rk2`, `rk4` returns a times sequence of
length `n_steps + 1` with `times[0] = t0` and `times[i+1] = times[i] + h`
(accumulated by repeated addition), and a trajectory of length
`n_steps + 1` starting at `y0` whose rows satisfy the stated stage
formulas; in particular Euler satisfies
`Y[i+1] = Y[i] + h * f(t[i], Y[i])` for every `0 ≤ i < n_steps`. -/
theorem c1_fixed_step_shape_and_stages (f : ℚ → V → V) (t0 : ℚ) (y0 : V)
    (h : ℚ) (n_steps : ℕ) (hn : 1 ≤ n_steps) :
    ((euler f t0 y0 h n_steps).1.length = n_steps + 1 ∧
     (euler f t0 y0 h n_steps).2.length = n_steps + 1 ∧
     (euler f t0 y0 h n_steps).1.getD 0 0 = t0 ∧
     (euler f t0 y0 h n_steps).2.getD 0 0 = y0 ∧
     (∀ i, i < n_steps → (euler f t0 y0 h n_steps).1.getD (i + 1) 0 =
        (euler f t0 y0 h n_steps).1.getD i 0 + h) ∧
     (∀ i, i < n_steps → (euler f t0 y0 h n_steps).2.getD (i + 1) 0 =
        (euler f t0 y0 h n_steps).2.getD i 0 +
          h • f ((euler f t0 y0 h n_steps).1.getD i 0)
            ((euler f t0 y0 h n_steps).2.getD i 0))) ∧
    ((rk2 f t0 y0 h n_steps).1.length = n_steps + 1 ∧
     (rk2 f t0 y0 h n_steps).2.length = n_steps + 1 ∧
     (rk2 f t0 y0 h n_steps).1.getD 0 0 = t0 ∧
     (rk2 f t0 y0 h n_steps).2.getD 0 0 = y0 ∧
     (∀ i, i < n_steps → (rk2 f t0 y0 h n_steps).1.getD (i + 1) 0 =
        (rk2 f t0 y0 h n_steps).1.getD i 0 + h) ∧
     (∀ i, i < n_steps →
        (rk2 f t0 y0 h n_steps).2.getD (i + 1) 0 =
          (rk2 f t0 y0 h n_steps).2.getD i 0 +
            h • f ((rk2 f t0 y0 h n_steps).1.getD i 0 + h / 2)
              ((rk2 f t0 y0 h n_steps).2.getD i 0 +
                (h / 2) • f ((rk2 f t0 y0 h n_steps).1.getD i 0)
                  ((rk2 f t0 y0 h n_steps).2.getD i 0)))) ∧
    ((rk4 f t0 y0 h n_steps).1.length = n_steps + 1 ∧
     (rk4 f t0 y0 h n_steps).2.length = n_steps + 1 ∧
     (rk4 f t0 y0 h n_steps).1.getD 0 0 = t0 ∧
     (rk4 f t0 y0 h n_steps).2.getD 0 0 = y0 ∧
     (∀ i, i < n_steps → (rk4 f t0 y0 h n_steps).1.getD (i + 1) 0 =
        (rk4 f t0 y0 h n_steps).1.getD i 0 + h) ∧
     (∀ i, i < n_steps →
        let t := (rk4 f t0 y0 h n_steps).1.getD i 0
        let y := (rk4 f t0 y0 h n_steps).2.getD i 0
        let k1 := f t y
        let k2 := f (t + h / 2) (y + (h / 2) • k1)
        let k3 := f (t + h / 2) (y + (h / 2) • k2)
        let k4 := f (t + h) (y + h • k3)
        (rk4 f t0 y0 h n_steps).2.getD (i + 1) 0 =
          y + (h / 6) • (k1 + (2 : ℚ) • k2 + (2 : ℚ) • k3 + k4))) := by
  refine ⟨⟨by simp [euler], by simp [euler], ?_, ?_, ?_, ?_⟩,
          ⟨by simp [rk2], by simp [rk2], ?_, ?_, ?_, ?_⟩,
          ⟨by simp [rk4], by simp [rk4], ?_, ?_, ?_, ?_⟩⟩
  · rw [show (euler f t0 y0 h n_steps).1 = (List.range (n_steps + 1)).map (tgrid t0 h) from rfl,
        getD_range_map _ _ (Nat.succ_pos n_steps)]
    rfl
  · rw [show (euler f t0 y0 h n_steps).2 =
          (List.range (n_steps + 1)).map (eulerY f t0 y0 h) from rfl,
        getD_range_map _ _ (Nat.succ_pos n_steps)]
    rfl
  · intro i hi
    rw [show (euler f t0 y0 h n_steps).1 = (List.range (n_steps + 1)).map (tgrid t0 h) from rfl,
        getD_range_map _ _ (by omega : i + 1 < n_steps + 1),
        getD_range_map _ _ (by omega : i < n_steps + 1)]
    rfl
  · intro i hi
    rw [show (euler f t0 y0 h n_steps).1 = (List.range (n_steps + 1)).map (tgrid t0 h) from rfl,
        show (euler f t0 y0 h n_steps).2 =
          (List.range (n_steps + 1)).map (eulerY f t0 y0 h) from rfl,
        getD_range_map _ _ (by omega : i + 1 < n_steps + 1),
        getD_range_map _ _ (by omega : i < n_steps + 1),
        getD_range_map _ _ (by omega : i < n_steps + 1)]
    simp [eulerY]
  · rw [show (rk2 f t0 y0 h n_steps).1 = (List.range (n_steps + 1)).map (tgrid t0 h) from rfl,
        getD_range_map _ _ (Nat.succ_pos n_steps)]
    rfl
  · rw [show (rk2 f t0 y0 h n_steps).2 =
          (List.range (n_steps + 1)).map (rk2Y f t0 y0 h) from rfl,
        getD_range_map _ _ (Nat.succ_pos n_steps)]
    rfl
  · intro i hi
    rw [show (rk2 f t0 y0 h n_steps).1 = (List.range (n_steps + 1)).map (tgrid t0 h) from rfl,
        getD_range_map _ _ (by omega : i + 1 < n_steps + 1),
        getD_range_map _ _ (by omega : i < n_steps + 1)]
    rfl
  · intro i hi
    rw [show (rk2 f t0 y0 h n_steps).1 = (List.range (n_steps + 1)).map (tgrid t0 h) from rfl,
        show (rk2 f t0 y0 h n_steps).2 =
          (List.range (n_steps + 1)).map (rk2Y f t0 y0 h) from rfl,
        getD_range_map _ _ (by omega : i + 1 < n_steps + 1),
        getD_range_map _ _ (by omega : i < n_steps + 1),
        getD_range_map _ _ (by omega : i < n_steps + 1)]
    simp [rk2Y]
  · rw [show (rk4 f t0 y0 h n_steps).1 = (List.range (n_steps + 1)).map (tgrid t0 h) from rfl,
        getD_range_map _ _ (Nat.succ_pos n_steps)]
    rfl
  · rw [show (rk4 f t0 y0 h n_steps).2 =
          (List.range (n_steps + 1)).map (rk4Y f t0 y0 h) from rfl,
        getD_range_map _ _ (Nat.succ_pos n_steps)]
    rfl
  · intro i hi
    rw [show (rk4 f t0 y0 h n_steps).1 = (List.range (n_steps + 1)).map (tgrid t0 h) from rfl,
        getD_range_map _ _ (by omega : i + 1 < n_steps + 1),
        getD_range_map _ _ (by omega : i < n_steps + 1)]
    rfl
  · intro i hi
    rw [show (rk4 f t0 y0 h n_steps).1 = (List.range (n_steps + 1)).map (tgrid t0 h) from rfl,
        show (rk4 f t0 y0 h n_steps).2 =
          (List.range (n_steps + 1)).map (rk4Y f t0 y0 h) from rfl,
        getD_range_map _ _ (by omega : i + 1 < n_steps + 1),
        getD_range_map _ _ (by omega : i < n_steps + 1),
        getD_range_map _ _ (by omega : i < n_steps + 1)]
    simp [rk4Y]

/-- Witness for C1: the hypotheses hold at the concrete input
`f = vf1`, `t0 = 0`, `y0 = 1`, `h = 1`, `n_steps = 1`. -/
theorem c1_fixed_step_shape_and_stages_witness :
    1 ≤ 1 ∧
    (((euler vf1 0 (1 : ℚ) 1 1).1.length = 1 + 1 ∧
      (euler vf1 0 (1 : ℚ) 1 1).2.length = 1 + 1 ∧
      (euler vf1 0 (1 : ℚ) 1 1).1.getD 0 0 = 0 ∧
      (euler vf1 0 (1 : ℚ) 1 1).2.getD 0 0 = 1 ∧
      (∀ i, i < 1 → (euler vf1 0 (1 : ℚ) 1 1).1.getD (i + 1) 0 =
         (euler vf1 0 (1 : ℚ) 1 1).1.getD i 0 + 1) ∧
      (∀ i, i < 1 → (euler vf1 0 (1 : ℚ) 1 1).2.getD (i + 1) 0 =
         (euler vf1 0 (1 : ℚ) 1 1).2.getD i 0 +
           (1 : ℚ) • vf1 ((euler vf1 0 (1 : ℚ) 1 1).1.getD i 0)
             ((euler vf1 0 (1 : ℚ) 1 1).2.getD i 0))) ∧
     ((rk2 vf1 0 (1 : ℚ) 1 1).1.length = 1 + 1 ∧
      (rk2 vf1 0 (1 : ℚ) 1 1).2.length = 1 + 1 ∧
      (rk2 vf1 0 (1 : ℚ) 1 1).1.getD 0 0 = 0 ∧
      (rk2 vf1 0 (1 : ℚ) 1 1).2.getD 0 0 = 1 ∧
      (∀ i, i < 1 → (rk2 vf1 0 (1 : ℚ) 1 1).1.getD (i + 1) 0 =
         (rk2 vf1 0 (1 : ℚ) 1 1).1.getD i 0 + 1) ∧
      (∀ i, i < 1 →
         (rk2 vf1 0 (1 : ℚ) 1 1).2.getD (i + 1) 0 =
           (rk2 vf1 0 (1 : ℚ) 1 1).2.getD i 0 +
             (1 : ℚ) • vf1 ((rk2 vf1 0 (1 : ℚ) 1 1).1.getD i 0 + 1 / 2)
               ((rk2 vf1 0 (1 : ℚ) 1 1).2.getD i 0 +
                 ((1 : ℚ) / 2) • vf1 ((rk2 vf1 0 (1 : ℚ) 1 1).1.getD i 0)
                   ((rk2 vf1 0 (1 : ℚ) 1 1).2.getD i 0)))) ∧
     ((rk4 vf1 0 (1 : ℚ) 1 1).1.length = 1 + 1 ∧
      (rk4 vf1 0 (1 : ℚ) 1 1).2.length = 1 + 1 ∧
      (rk4 vf1 0 (1 : ℚ) 1 1).1.getD 0 0 = 0 ∧
      (rk4 vf1 0 (1 : ℚ) 1 1).2.getD 0 0 = 1 ∧
      (∀ i, i < 1 → (rk4 vf1 0 (1 : ℚ) 1 1).1.getD (i + 1) 0 =
         (rk4 vf1 0 (1 : ℚ) 1 1).1.getD i 0 + 1) ∧
      (∀ i, i < 1 →
         let t := (rk4 vf1 0 (1 : ℚ) 1 1).1.getD i 0
         let y := (rk4 vf1 0 (1 : ℚ) 1 1).2.getD i 0
         let k1 := vf1 t y
         let k2 := vf1 (t + 1 / 2) (y + ((1 : ℚ) / 2) • k1)
         let k3 := vf1 (t + 1 / 2) (y + ((1 : ℚ) / 2) • k2)
         let k4 := vf1 (t + 1) (y + (1 : ℚ) • k3)
         (rk4 vf1 0 (1 : ℚ) 1 1).2.getD (i + 1) 0 =
           y + ((1 : ℚ) / 6) • (k1 + (2 : ℚ) • k2 + (2 : ℚ) • k3 + k4)))) :=
  ⟨Nat.le_refl 1, c1_fixed_step_shape_and_stages vf1 0 1 1 1 (Nat.le_refl 1)⟩

end Claim1

section MultistepClaims

variable {V : Type} [AddCommGroup V] [Module ℚ V]

lemma amY_rec (f : ℚ → V → V) (t0 : ℚ) (y0 : V) (h : ℚ) (i : ℕ) (h3 : 3 ≤ i) :
    amY f t0 y0 h (i + 1) =
      amY f t0 y0 h i +
        (h / 24) • ((9 : ℚ) • f (tgrid t0 h i + h)
            (amY f t0 y0 h i + (h / 24) •
              ((55 : ℚ) • f (tgrid t0 h i) (amY f t0 y0 h i) -
               (59 : ℚ) • f (tgrid t0 h (i - 1)) (amY f t0 y0 h (i - 1)) +
               (37 : ℚ) • f (tgrid t0 h (i - 2)) (amY f t0 y0 h (i - 2)) -
               (9 : ℚ) • f (tgrid t0 h (i - 3)) (amY f t0 y0 h (i - 3)))) +
          (19 : ℚ) • f (tgrid t0 h i) (amY f t0 y0 h i) -
          (5 : ℚ) • f (tgrid t0 h (i - 1)) (amY f t0 y0 h (i - 1)) +
          f (tgrid t0 h (i - 2)) (amY f t0 y0 h (i - 2))) := by
  obtain ⟨j, rfl⟩ : ∃ j, i = j + 3 := ⟨i - 3, by omega⟩
  conv_lhs => rw [amY]
  rw [if_neg (by omega)]

/-- C5: for every step `3 ≤ i < n_steps`, the Adams-Moulton
predictor-corrector method forms the Adams-Bashforth predictor
`y_pred = Y[i] + h/24 (55 f_i - 59 f_(i-1) + 37 f_(i-2) - 9 f_(i-3))`,
evaluates `f_pred = f(t_i + h, y_pred)`, and sets
`Y[i+1] = Y[i] + h/24 (9 f_pred + 19 f_i - 5 f_(i-1) + f_(i-2))` —
a single predictor-corrector pass per step. -/
theorem c5_adams_moulton_recurrence (f : ℚ → V → V) (t0 : ℚ) (y0 : V) (h : ℚ)
    (n_steps i : ℕ) (R : List ℚ × List V)
    (hR : R = adams_moulton f t0 y0 h n_steps) (h3 : 3 ≤ i) (hi : i < n_steps) :
    R.2.getD (i + 1) 0 =
      R.2.getD i 0 + (h / 24) •
        ((9 : ℚ) • f (R.1.getD i 0 + h)
          (R.2.getD i 0 + (h / 24) •
            ((55 : ℚ) • f (R.1.getD i 0) (R.2.getD i 0) -
             (59 : ℚ) • f (R.1.getD (i - 1) 0) (R.2.getD (i - 1) 0) +
             (37 : ℚ) • f (R.1.getD (i - 2) 0) (R.2.getD (i - 2) 0) -
             (9 : ℚ) • f (R.1.getD (i - 3) 0) (R.2.getD (i - 3) 0))) +
         (19 : ℚ) • f (R.1.getD i 0) (R.2.getD i 0) -
         (5 : ℚ) • f (R.1.getD (i - 1) 0) (R.2.getD (i - 1) 0) +
         f (R.1.getD (i - 2) 0) (R.2.getD (i - 2) 0)) := by
  subst hR
  rw [show (adams_moulton f t0 y0 h n_steps).1 =
        (List.range (n_steps + 1)).map (tgrid t0 h) from rfl,
      show (adams_moulton f t0 y0 h n_steps).2 =
        (List.range (n_steps + 1)).map (amY f t0 y0 h) from rfl,
      getD_range_map _ _ (by omega : i + 1 < n_steps + 1),
      getD_range_map _ _ (by omega : i < n_steps + 1),
      getD_range_map _ _ (by omega : i < n_steps + 1),
      getD_range_map _ _ (by omega : i - 1 < n_steps + 1),
      getD_range_map _ _ (by omega : i - 1 < n_steps + 1),
      getD_range_map _ _ (by omega : i - 2 < n_steps + 1),
      getD_range_map _ _ (by omega : i - 2 < n_steps + 1),
      getD_range_map _ _ (by omega : i - 3 < n_steps + 1),
      getD_range_map _ _ (by omega : i - 3 < n_steps + 1)]
  exact amY_rec f t0 y0 h i h3

lemma abY_eq_rk4Y (f : ℚ → V → V) (t0 : ℚ) (y0 : V) (h : ℚ) :
    ∀ i, i ≤ 3 → abY f t0 y0 h i = rk4Y f t0 y0 h i := by
  intro i
  induction i with
  | zero => intro _; rw [abY, rk4Y]
  | succ j ih =>
    intro hj
    have hj3 : j < 3 := by omega
    conv_lhs => rw [abY]
    rw [if_pos hj3, ih (by omega)]
    conv_rhs => rw [rk4Y]

/-- C6: for `n_steps < 3` the Adams-Bashforth-4 stepper's output (times
and trajectory) is identical to the RK4 stepper's output on the same
inputs — only the RK4 bootstrap runs and the multistep recurrence is
never executed. -/
theorem c6_adams_bashforth_bootstrap_is_rk4 (f : ℚ → V → V) (t0 : ℚ) (y0 : V)
    (h : ℚ) (n_steps : ℕ) (hn : n_steps < 3) :
    adams_bashforth f t0 y0 h n_steps = rk4 f t0 y0 h n_steps := by
  unfold adams_bashforth rk4
  refine congrArg _ ?_
  refine List.map_congr_left ?_
  intro i hi
  have hi3 : i ≤ 3 := by
    have := List.mem_range.mp hi
    omega
  exact abY_eq_rk4Y f t0 y0 h i hi3

lemma bdf2Y_rec (f : ℚ → V → V) (t0 : ℚ) (y0 : V) (h : ℚ) (j : ℕ) :
    bdf2Y f t0 y0 h (j + 2) =
      (fun y => (3 : ℚ)⁻¹ • ((4 : ℚ) • bdf2Y f t0 y0 h (j + 1) - bdf2Y f t0 y0 h j +
        (2 * h) • f (tgrid t0 h (j + 1) + h) y))
      ((fun y => (3 : ℚ)⁻¹ • ((4 : ℚ) • bdf2Y f t0 y0 h (j + 1) - bdf2Y f t0 y0 h j +
        (2 * h) • f (tgrid t0 h (j + 1) + h) y))
       ((fun y => (3 : ℚ)⁻¹ • ((4 : ℚ) • bdf2Y f t0 y0 h (j + 1) - bdf2Y f t0 y0 h j +
        (2 * h) • f (tgrid t0 h (j + 1) + h) y))
        (bdf2Y f t0 y0 h (j + 1)))) := by
  conv_lhs => rw [bdf2Y]

/-- C7: the BDF2 stepper computes `Y[1]` from `Y[0]` by one explicit
Euler step, and for every `1 ≤ i < n_steps` computes `Y[i+1]` by applying
the map `g(y) = (4 Y[i] - Y[i-1] + 2h f(t_i + h, y)) / 3` exactly three
times starting from `y_guess = Y[i]`, accepting the third iterate
unconditionally. -/
theorem c7_bdf2_bootstrap_and_three_iterations (f : ℚ → V → V) (t0 : ℚ)
    (y0 : V) (h : ℚ) (n_steps : ℕ) (R : List ℚ × List V)
    (hR : R = bdf2 f t0 y0 h n_steps) (hn : 1 ≤ n_steps) :
    R.2.getD 1 0 = y0 + h • f t0 y0 ∧
    (∀ i, 1 ≤ i → i < n_steps →
      R.2.getD (i + 1) 0 =
        (fun y => (3 : ℚ)⁻¹ • ((4 : ℚ) • R.2.getD i 0 - R.2.getD (i - 1) 0 +
          (2 * h) • f (R.1.getD i 0 + h) y))
        ((fun y => (3 : ℚ)⁻¹ • ((4 : ℚ) • R.2.getD i 0 - R.2.getD (i - 1) 0 +
          (2 * h) • f (R.1.getD i 0 + h) y))
         ((fun y => (3 : ℚ)⁻¹ • ((4 : ℚ) • R.2.getD i 0 - R.2.getD (i - 1) 0 +
          (2 * h) • f (R.1.getD i 0 + h) y))
          (R.2.getD i 0)))) := by
  subst hR
  constructor
  · rw [show (bdf2 f t0 y0 h n_steps).2 =
          (List.range (n_steps + 1)).map (bdf2Y f t0 y0 h) from rfl,
        getD_range_map _ _ (by omega : 1 < n_steps + 1)]
    rw [bdf2Y]
  · intro i h1 hi
    obtain ⟨j, rfl⟩ : ∃ j, i = j + 1 := ⟨i - 1, by omega⟩
    rw [show (bdf2 f t0 y0 h n_steps).1 =
          (List.range (n_steps + 1)).map (tgrid t0 h) from rfl,
        show (bdf2 f t0 y0 h n_steps).2 =
          (List.range (n_steps + 1)).map (bdf2Y f t0 y0 h) from rfl,
        getD_range_map _ _ (by omega : j + 1 + 1 < n_steps + 1),
        getD_range_map _ _ (by omega : j + 1 < n_steps + 1),
        getD_range_map _ _ (by omega : j + 1 - 1 < n_steps + 1),
        getD_range_map _ _ (by omega : j + 1 < n_steps + 1)]
    simp only [Nat.add_sub_cancel]
    exact bdf2Y_rec f t0 y0 h j

/-- Witness for C5: the hypotheses hold at the concrete input
`f = vf5`, `t0 = 0`, `y0 = 1`, `h = 1`, `n_steps = 4`, `i = 3`, with
`R` the corresponding `adams_moulton` trajectory
`([0,1,2,3,4], [1, 65/24, 4225/576, 274625/13824, 141635437/2654208])`. -/
theorem c5_adams_moulton_recurrence_witness :
    (adams_moulton vf5 0 (1 : ℚ) 1 4 = adams_moulton vf5 0 (1 : ℚ) 1 4 ∧
      3 ≤ 3 ∧ 3 < 4) ∧
    (adams_moulton vf5 0 (1 : ℚ) 1 4).2.getD (3 + 1) 0 =
      (adams_moulton vf5 0 (1 : ℚ) 1 4).2.getD 3 0 + ((1 : ℚ) / 24) •
        ((9 : ℚ) • vf5 ((adams_moulton vf5 0 (1 : ℚ) 1 4).1.getD 3 0 + 1)
          ((adams_moulton vf5 0 (1 : ℚ) 1 4).2.getD 3 0 + ((1 : ℚ) / 24) •
            ((55 : ℚ) • vf5 ((adams_moulton vf5 0 (1 : ℚ) 1 4).1.getD 3 0)
               ((adams_moulton vf5 0 (1 : ℚ) 1 4).2.getD 3 0) -
             (59 : ℚ) • vf5 ((adams_moulton vf5 0 (1 : ℚ) 1 4).1.getD (3 - 1) 0)
               ((adams_moulton vf5 0 (1 : ℚ) 1 4).2.getD (3 - 1) 0) +
             (37 : ℚ) • vf5 ((adams_moulton vf5 0 (1 : ℚ) 1 4).1.getD (3 - 2) 0)
               ((adams_moulton vf5 0 (1 : ℚ) 1 4).2.getD (3 - 2) 0) -
             (9 : ℚ) • vf5 ((adams_moulton vf5 0 (1 : ℚ) 1 4).1.getD (3 - 3) 0)
               ((adams_moulton vf5 0 (1 : ℚ) 1 4).2.getD (3 - 3) 0))) +
         (19 : ℚ) • vf5 ((adams_moulton vf5 0 (1 : ℚ) 1 4).1.getD 3 0)
           ((adams_moulton vf5 0 (1 : ℚ) 1 4).2.getD 3 0) -
         (5 : ℚ) • vf5 ((adams_moulton vf5 0 (1 : ℚ) 1 4).1.getD (3 - 1) 0)
           ((adams_moulton vf5 0 (1 : ℚ) 1 4).2.getD (3 - 1) 0) +
         vf5 ((adams_moulton vf5 0 (1 : ℚ) 1 4).1.getD (3 - 2) 0)
           ((adams_moulton vf5 0 (1 : ℚ) 1 4).2.getD (3 - 2) 0)) :=
  ⟨⟨rfl, by omega, by omega⟩,
   c5_adams_moulton_recurrence vf5 0 1 1 4 3 _ rfl (by omega) (by omega)⟩

/-- Witness for C6: the hypothesis holds at the concrete input
`f = vf6`, `t0 = 0`, `y0 = 1`, `h = 1`, `n_steps = 2`. -/
theorem c6_adams_bashforth_bootstrap_is_rk4_witness :
    2 < 3 ∧ adams_bashforth vf6 0 (1 : ℚ) 1 2 = rk4 vf6 0 (1 : ℚ) 1 2 :=
  ⟨by omega, c6_adams_bashforth_bootstrap_is_rk4 vf6 0 1 1 2 (by omega)⟩

/-- Witness for C7: the hypotheses hold at the concrete input
`f = vf7`, `t0 = 0`, `y0 = 1`, `h = 1`, `n_steps = 2`, with `R` the
corresponding `bdf2` trajectory `([0,1,2], [1, 2, 149/27])`. -/
theorem c7_bdf2_bootstrap_and_three_iterations_witness :
    (bdf2 vf7 0 (1 : ℚ) 1 2 = bdf2 vf7 0 (1 : ℚ) 1 2 ∧ 1 ≤ 2) ∧
    (bdf2 vf7 0 (1 : ℚ) 1 2).2.getD 1 0 = 1 + (1 : ℚ) • vf7 0 1 ∧
    (∀ i, 1 ≤ i → i < 2 →
      (bdf2 vf7 0 (1 : ℚ) 1 2).2.getD (i + 1) 0 =
        (fun y => (3 : ℚ)⁻¹ • ((4 : ℚ) • (bdf2 vf7 0 (1 : ℚ) 1 2).2.getD i 0 -
          (bdf2 vf7 0 (1 : ℚ) 1 2).2.getD (i - 1) 0 +
          ((2 : ℚ) * 1) • vf7 ((bdf2 vf7 0 (1 : ℚ) 1 2).1.getD i 0 + 1) y))
        ((fun y => (3 : ℚ)⁻¹ • ((4 : ℚ) • (bdf2 vf7 0 (1 : ℚ) 1 2).2.getD i 0 -
          (bdf2 vf7 0 (1 : ℚ) 1 2).2.getD (i - 1) 0 +
          ((2 : ℚ) * 1) • vf7 ((bdf2 vf7 0 (1 : ℚ) 1 2).1.getD i 0 + 1) y))
         ((fun y => (3 : ℚ)⁻¹ • ((4 : ℚ) • (bdf2 vf7 0 (1 : ℚ) 1 2).2.getD i 0 -
          (bdf2 vf7 0 (1 : ℚ) 1 2).2.getD (i - 1) 0 +
          ((2 : ℚ) * 1) • vf7 ((bdf2 vf7 0 (1 : ℚ) 1 2).1.getD i 0 + 1) y))
          ((bdf2 vf7 0 (1 : ℚ) 1 2).2.getD i 0)))) :=
  ⟨⟨rfl, by omega⟩,
   c7_bdf2_bootstrap_and_three_iterations vf7 0 1 1 2 _ rfl (by omega)⟩

end MultistepClaims

section SymplecticClaims

lemma svStep_reverse (f : ℚ → ℚ → ℚ) (h : ℚ) (s : ℚ × ℚ × ℚ) :
    svStep f (-h) (svStep f h s) = s := by
  obtain ⟨t, q, p⟩ := s
  simp only [svStep]
  have e1 : t + h + -h = t := by ring
  rw [e1]
  simp only [Prod.mk.injEq]
  refine ⟨trivial, ?_, ?_⟩
  · ring
  · have e2 : q + h * (p + 1 / 2 * h * f t q) +
        -h * (p + 1 / 2 * h * f t q + 1 / 2 * h *
            f (t + h) (q + h * (p + 1 / 2 * h * f t q)) +
          1 / 2 * -h * f (t + h) (q + h * (p + 1 / 2 * h * f t q))) = q := by
      ring
    rw [e2]
    ring

lemma svStep_iterate_reverse (f : ℚ → ℚ → ℚ) (h : ℚ) (N : ℕ) (s : ℚ × ℚ × ℚ) :
    (svStep f (-h))^[N] ((svStep f h)^[N] s) = s := by
  induction N with
  | zero => rfl
  | succ n ih =>
    rw [Function.iterate_succ_apply' (svStep f h),
        Function.iterate_succ_apply (svStep f (-h)),
        svStep_reverse, ih]

/-- C8: the Störmer-Verlet stepper is exactly time-reversible under exact
arithmetic — integrating forward `N ≥ 1` steps from `(q0, p0)` and then
integrating `N` steps with step size `-h` from the resulting state
(starting at the final time) returns the initial state `(q0, p0)`. -/
theorem c8_stormer_verlet_reversible (f : ℚ → ℚ → ℚ) (t0 q0 p0 h : ℚ)
    (N : ℕ) (hN : 1 ≤ N) :
    (stormer_verlet f
        ((stormer_verlet f t0 q0 p0 h N).1.getD N 0)
        ((stormer_verlet f t0 q0 p0 h N).2.getD N (0, 0)).1
        ((stormer_verlet f t0 q0 p0 h N).2.getD N (0, 0)).2
        (-h) N).2.getD N (0, 0) = (q0, p0) := by
  rw [show (stormer_verlet f t0 q0 p0 h N).1 =
        (List.range (N + 1)).map (fun i => ((svStep f h)^[i] (t0, q0, p0)).1) from rfl,
      show (stormer_verlet f t0 q0 p0 h N).2 =
        (List.range (N + 1)).map (fun i => ((svStep f h)^[i] (t0, q0, p0)).2) from rfl,
      getD_range_map _ _ (by omega : N < N + 1),
      getD_range_map _ _ (by omega : N < N + 1)]
  rw [show (stormer_verlet f ((svStep f h)^[N] (t0, q0, p0)).1
        (((svStep f h)^[N] (t0, q0, p0)).2).1 (((svStep f h)^[N] (t0, q0, p0)).2).2
        (-h) N).2 =
      (List.range (N + 1)).map
        (fun i => ((svStep f (-h))^[i] (((svStep f h)^[N] (t0, q0, p0)).1,
          (((svStep f h)^[N] (t0, q0, p0)).2).1,
          (((svStep f h)^[N] (t0, q0, p0)).2).2)).2) from rfl,
      getD_range_map _ _ (by omega : N < N + 1)]
  rw [show ((((svStep f h)^[N] (t0, q0, p0)).1,
        (((svStep f h)^[N] (t0, q0, p0)).2).1,
        (((svStep f h)^[N] (t0, q0, p0)).2).2)) = (svStep f h)^[N] (t0, q0, p0) from rfl]
  rw [svStep_iterate_reverse]

/-- Witness for C8: the hypothesis holds at the concrete input
`f = svf`, `t0 = 0`, `q0 = 1`, `p0 = 0`, `h = 1`, `N = 1` (forward step
lands on `(1/2, -3/4)`; the reversed run returns `(1, 0)`). -/
theorem c8_stormer_verlet_reversible_witness :
    1 ≤ 1 ∧
    (stormer_verlet svf
        ((stormer_verlet svf 0 1 0 1 1).1.getD 1 0)
        ((stormer_verlet svf 0 1 0 1 1).2.getD 1 (0, 0)).1
        ((stormer_verlet svf 0 1 0 1 1).2.getD 1 (0, 0)).2
        (-1) 1).2.getD 1 (0, 0) = ((1 : ℚ), (0 : ℚ)) :=
  ⟨by omega, c8_stormer_verlet_reversible svf 0 1 0 1 1 (by omega)⟩

end SymplecticClaims

section Claim10

variable {V : Type} [AddCommGroup V] [Module ℚ V]

/-- C10: for `n_steps = 0` the `verlet` stepper is not total — its
unconditional bootstrap writes to index 1 of a length-1 array and fails
(`none`, an `IndexError` in the source) — whereas every other fixed-step
stepper, including `bdf2` with its guarded Euler bootstrap, returns the
length-1 trajectory `([t0], [y0])`. -/
theorem c10_verlet_partial_at_zero_steps (fq : ℚ → ℚ → ℚ) (f : ℚ → V → V)
    (t0 q0 p0 h : ℚ) (y0 : V) :
    verlet fq t0 q0 p0 h 0 = none ∧
    euler f t0 y0 h 0 = ([t0], [y0]) ∧
    rk2 f t0 y0 h 0 = ([t0], [y0]) ∧
    rk4 f t0 y0 h 0 = ([t0], [y0]) ∧
    adams_bashforth f t0 y0 h 0 = ([t0], [y0]) ∧
    adams_moulton f t0 y0 h 0 = ([t0], [y0]) ∧
    bdf2 f t0 y0 h 0 = ([t0], [y0]) ∧
    stormer_verlet fq t0 q0 p0 h 0 = ([t0], [(q0, p0)]) := by
  refine ⟨rfl, rfl, rfl, rfl, ?_, ?_, ?_, rfl⟩
  · unfold adams_bashforth
    rw [show List.range (0 + 1) = [0] from rfl]
    rw [show ([0] : List ℕ).map (abY f t0 y0 h) = [abY f t0 y0 h 0] from rfl]
    rw [show abY f t0 y0 h 0 = y0 from by rw [abY]]
    rfl
  · unfold adams_moulton
    rw [show List.range (0 + 1) = [0] from rfl]
    rw [show ([0] : List ℕ).map (amY f t0 y0 h) = [amY f t0 y0 h 0] from rfl]
    rw [show amY f t0 y0 h 0 = y0 from by rw [amY]]
    rfl
  · unfold bdf2
    rw [show List.range (0 + 1) = [0] from rfl]
    rw [show ([0] : List ℕ).map (bdf2Y f t0 y0 h) = [bdf2Y f t0 y0 h 0] from rfl]
    rw [show bdf2Y f t0 y0 h 0 = y0 from by rw [bdf2Y]]
    rfl

end Claim10

section DispatchClaims

/-- C4 counterexample: with `f(t, X) = if t = 0 then 0 :: X else X`,
`t0 = 1`, `y0 = [0]`, the vector `f(t0, zeros(1))` has length `1 = n`,
so the claim — which says the check evaluates `f` at `(t0, zeros(n))` —
predicts acceptance; yet the pipeline rejects with a configuration
error, because the source evaluates `f` at literal time `0`, where the
returned length is `2`. -/
theorem c4_dimension_check_not_at_t0_counterexample :
    pipeline (fun t X => if t = 0 then 0 :: X else X) 1 2 1 [0] =
      Except.error SolveError.configuration ∧
    ((fun (t : ℚ) (X : List ℚ) => if t = 0 then 0 :: X else X) 1
      (List.replicate ([(0 : ℚ)] : List ℚ).length 0)).length =
      ([(0 : ℚ)] : List ℚ).length := by
  constructor
  · rfl
  · norm_num

/-- C4 (amended): before any stepper is invoked the dispatcher evaluates
`f` once at `(0, zero-vector-of-length-n)` — at literal time `0`, not at
`t0` — and integration is rejected as a configuration error exactly when
the returned vector's length differs from `n`; on rejection no step is
taken (the pipeline never reaches the step-count stage). -/
theorem c4_dimension_check_at_time_zero (f : ℚ → List ℚ → List ℚ)
    (t0 t_final h : ℚ) (y0 : List ℚ) :
    pipeline f t0 t_final h y0 = Except.error SolveError.configuration ↔
      (f 0 (List.replicate y0.length 0)).length ≠ y0.length := by
  unfold pipeline
  by_cases hc : (f 0 (List.replicate y0.length 0)).length = y0.length
  · simp only [hc, ne_eq, not_true_eq_false, if_false]
    constructor
    · intro hcontra
      by_cases hs : (⌈(t_final - t0) / h⌉ : ℤ) ≤ 0
      · rw [if_pos hs] at hcontra
        exact absurd (Except.error.inj hcontra) (by simp)
      · rw [if_neg hs] at hcontra
        exact Except.noConfusion hcontra
    · intro hcontra
      exact hcontra.elim
  · simp [hc]

/-- C9: integration never starts on degenerate parameters — with a valid
`f`, the pipeline reports a degenerate-parameter error whenever
`t_final ≤ t0` (for positive `h`) or whenever the derived step count
`ceil((t_final - t0)/h)` is non-positive; and for every input reachable
through the UI bounds (`h ≥ 10⁻⁶` and `t_final ≥ t0 + 10⁻⁶`) the
pipeline dispatches with a step count `N > 0`, `h > 0` and
`t_final > t0`. -/
theorem c9_no_integration_on_degenerate_parameters
    (f : ℚ → List ℚ → List ℚ) (t0 t_final h : ℚ) (y0 : List ℚ)
    (hval : (f 0 (List.replicate y0.length 0)).length = y0.length) :
    (0 < h → t_final ≤ t0 →
      pipeline f t0 t_final h y0 = Except.error SolveError.degenerate) ∧
    ((⌈(t_final - t0) / h⌉ : ℤ) ≤ 0 →
      pipeline f t0 t_final h y0 = Except.error SolveError.degenerate) ∧
    ((1 : ℚ) / 1000000 ≤ h → t0 + 1 / 1000000 ≤ t_final →
      ∃ N, pipeline f t0 t_final h y0 = Except.ok N ∧ 0 < N ∧ 0 < h ∧
        t0 < t_final) := by
  refine ⟨?_, ?_, ?_⟩
  · intro hh hle
    have hdiv : (t_final - t0) / h ≤ 0 :=
      div_nonpos_iff.mpr (Or.inr ⟨by linarith, hh.le⟩)
    have hceil : (⌈(t_final - t0) / h⌉ : ℤ) ≤ 0 := by
      rw [Int.ceil_le]
      exact_mod_cast hdiv
    simp [pipeline, hval, hceil]
  · intro hceil
    simp [pipeline, hval, hceil]
  · intro hh6 ht6
    have hh : 0 < h := lt_of_lt_of_le (by norm_num) hh6
    have hsub : 0 < t_final - t0 := by
      have : (0 : ℚ) < 1 / 1000000 := by norm_num
      linarith
    have hratio : 0 < (t_final - t0) / h := div_pos hsub hh
    have hceil : 0 < (⌈(t_final - t0) / h⌉ : ℤ) := Int.ceil_pos.mpr hratio
    refine ⟨(⌈(t_final - t0) / h⌉ : ℤ).toNat, ?_, by omega, hh, by linarith⟩
    simp [pipeline, hval, not_le.mpr hceil]

/-- Witness for C9: the hypothesis holds at the concrete input
`f = id` on the state, `t0 = 0`, `t_final = 1`, `h = 1`, `y0 = [0]`
(the pipeline dispatches with step count 1). -/
theorem c9_no_integration_on_degenerate_parameters_witness :
    ((fun (t : ℚ) (X : List ℚ) => X) 0
        (List.replicate ([(0 : ℚ)] : List ℚ).length 0)).length =
      ([(0 : ℚ)] : List ℚ).length ∧
    ((0 < (1 : ℚ) → (1 : ℚ) ≤ 0 →
      pipeline (fun (t : ℚ) (X : List ℚ) => X) 0 1 1 [0] =
        Except.error SolveError.degenerate) ∧
     ((⌈((1 : ℚ) - 0) / 1⌉ : ℤ) ≤ 0 →
      pipeline (fun (t : ℚ) (X : List ℚ) => X) 0 1 1 [0] =
        Except.error SolveError.degenerate) ∧
     ((1 : ℚ) / 1000000 ≤ 1 → (0 : ℚ) + 1 / 1000000 ≤ 1 →
      ∃ N, pipeline (fun (t : ℚ) (X : List ℚ) => X) 0 1 1 [0] =
          Except.ok N ∧ 0 < N ∧ (0 : ℚ) < 1 ∧ (0 : ℚ) < 1)) :=
  ⟨rfl, c9_no_integration_on_degenerate_parameters
    (fun (t : ℚ) (X : List ℚ) => X) 0 1 1 [0] rfl⟩

end DispatchClaims

section AdaptiveClaims

variable {W : Type} [NormedAddCommGroup W] [NormedSpace ℝ W]

/-- C2: at every iteration of the adaptive RKF45 loop from the last
accepted point `(t_i, y_i)` with (possibly clamped) step `h2` and error
estimate `err = ‖y5 - y4‖` (the norm of the difference of the embedded
estimates): if `err < tol` the step is accepted — `(t_i + h2, y5)` (the
5th-order estimate) is appended and the step is multiplied by
`min(2, (tol/err)^(1/4))`, or by exactly `2` when `err = 0`; if
`err ≥ tol` the step is rejected — nothing is appended, the step is
multiplied by `max(0.1, 0.9 (tol/err)^(1/4))`, and the loop retries from
the same `(t_i, y_i)`. -/
theorem c2_rkf45_accept_reject_semantics (f : ℝ → W → W) (t_final tol : ℝ)
    (fuel : ℕ) (ti : ℝ) (yi : W) (past : List (ℝ × W)) (h : ℝ)
    (hlt : ti < t_final) :
    (‖rkfY5 f ti yi (if t_final < ti + h then t_final - ti else h) -
        rkfY4 f ti yi (if t_final < ti + h then t_final - ti else h)‖ < tol →
      rkfLoop f t_final tol (fuel + 1) (ti, yi) past h =
        rkfLoop f t_final tol fuel
          (ti + (if t_final < ti + h then t_final - ti else h),
           rkfY5 f ti yi (if t_final < ti + h then t_final - ti else h))
          ((ti, yi) :: past)
          ((if t_final < ti + h then t_final - ti else h) *
            (if 0 < ‖rkfY5 f ti yi (if t_final < ti + h then t_final - ti else h) -
                rkfY4 f ti yi (if t_final < ti + h then t_final - ti else h)‖ then
              min 2 ((tol / ‖rkfY5 f ti yi
                  (if t_final < ti + h then t_final - ti else h) -
                rkfY4 f ti yi (if t_final < ti + h then t_final - ti else h)‖) ^
                  ((1 : ℝ) / 4))
             else 2))) ∧
    (tol ≤ ‖rkfY5 f ti yi (if t_final < ti + h then t_final - ti else h) -
        rkfY4 f ti yi (if t_final < ti + h then t_final - ti else h)‖ →
      rkfLoop f t_final tol (fuel + 1) (ti, yi) past h =
        rkfLoop f t_final tol fuel (ti, yi) past
          ((if t_final < ti + h then t_final - ti else h) *
            max (1 / 10) ((9 / 10) *
              (tol / ‖rkfY5 f ti yi
                  (if t_final < ti + h then t_final - ti else h) -
                rkfY4 f ti yi (if t_final < ti + h then t_final - ti else h)‖) ^
                ((1 : ℝ) / 4)))) := by
  constructor
  · intro hacc
    conv_lhs => rw [rkfLoop]
    rw [if_pos hlt]
    dsimp only
    rw [if_pos hacc]
  · intro hrej
    conv_lhs => rw [rkfLoop]
    rw [if_pos hlt]
    dsimp only
    rw [if_neg (not_lt.mpr hrej)]

/-- Witness for C2: the hypothesis holds at the concrete input `f = rf0`,
`t_final = tol = 1`, `fuel = 0`, `(t_i, y_i) = (0, 0)`, `h = 1`. -/
theorem c2_rkf45_accept_reject_semantics_witness :
    (0 : ℝ) < 1 ∧
    ((‖rkfY5 rf0 0 0 (if (1 : ℝ) < 0 + 1 then 1 - 0 else 1) -
        rkfY4 rf0 0 0 (if (1 : ℝ) < 0 + 1 then 1 - 0 else 1)‖ < 1 →
      rkfLoop rf0 1 1 (0 + 1) ((0 : ℝ), (0 : ℝ)) [] 1 =
        rkfLoop rf0 1 1 0
          ((0 : ℝ) + (if (1 : ℝ) < 0 + 1 then 1 - 0 else 1),
           rkfY5 rf0 0 0 (if (1 : ℝ) < 0 + 1 then 1 - 0 else 1))
          [((0 : ℝ), (0 : ℝ))]
          ((if (1 : ℝ) < 0 + 1 then 1 - 0 else 1) *
            (if 0 < ‖rkfY5 rf0 0 0 (if (1 : ℝ) < 0 + 1 then 1 - 0 else 1) -
                rkfY4 rf0 0 0 (if (1 : ℝ) < 0 + 1 then 1 - 0 else 1)‖ then
              min 2 ((1 / ‖rkfY5 rf0 0 0
                  (if (1 : ℝ) < 0 + 1 then 1 - 0 else 1) -
                rkfY4 rf0 0 0 (if (1 : ℝ) < 0 + 1 then 1 - 0 else 1)‖) ^
                  ((1 : ℝ) / 4))
             else 2))) ∧
     ((1 : ℝ) ≤ ‖rkfY5 rf0 0 0 (if (1 : ℝ) < 0 + 1 then 1 - 0 else 1) -
        rkfY4 rf0 0 0 (if (1 : ℝ) < 0 + 1 then 1 - 0 else 1)‖ →
      rkfLoop rf0 1 1 (0 + 1) ((0 : ℝ), (0 : ℝ)) [] 1 =
        rkfLoop rf0 1 1 0 ((0 : ℝ), (0 : ℝ)) []
          ((if (1 : ℝ) < 0 + 1 then 1 - 0 else 1) *
            max (1 / 10) ((9 / 10) *
              ((1 : ℝ) / ‖rkfY5 rf0 0 0
                  (if (1 : ℝ) < 0 + 1 then 1 - 0 else 1) -
                rkfY4 rf0 0 0 (if (1 : ℝ) < 0 + 1 then 1 - 0 else 1)‖) ^
                ((1 : ℝ) / 4))))) :=
  ⟨by norm_num,
   c2_rkf45_accept_reject_semantics rf0 1 1 0 0 0 [] 1 (by norm_num)⟩

lemma clamp_eq_min (t_final ti h : ℝ) :
    (if t_final < ti + h then t_final - ti else h) = min h (t_final - ti) := by
  split_ifs with hc
  · exact (min_eq_right (by linarith)).symm
  · exact (min_eq_left (by linarith)).symm

lemma rkfBody_accept_eq (f : ℝ → W → W) (t_final tol : ℝ) (ti : ℝ) (yi : W)
    (past : List (ℝ × W)) (h : ℝ)
    (hacc : ‖rkfY5 f ti yi (if t_final < ti + h then t_final - ti else h) -
      rkfY4 f ti yi (if t_final < ti + h then t_final - ti else h)‖ < tol) :
    rkfBody f t_final tol ((ti, yi), past, h) =
      ((ti + (if t_final < ti + h then t_final - ti else h),
        rkfY5 f ti yi (if t_final < ti + h then t_final - ti else h)),
       (ti, yi) :: past,
       (if t_final < ti + h then t_final - ti else h) *
         (if 0 < ‖rkfY5 f ti yi (if t_final < ti + h then t_final - ti else h) -
             rkfY4 f ti yi (if t_final < ti + h then t_final - ti else h)‖ then
           min 2 ((tol / ‖rkfY5 f ti yi
               (if t_final < ti + h then t_final - ti else h) -
             rkfY4 f ti yi (if t_final < ti + h then t_final - ti else h)‖) ^
               ((1 : ℝ) / 4))
          else 2)) := by
  simp only [rkfBody]
  rw [if_pos hacc]

lemma rkfBody_reject_eq (f : ℝ → W → W) (t_final tol : ℝ) (ti : ℝ) (yi : W)
    (past : List (ℝ × W)) (h : ℝ)
    (hrej : ¬ ‖rkfY5 f ti yi (if t_final < ti + h then t_final - ti else h) -
      rkfY4 f ti yi (if t_final < ti + h then t_final - ti else h)‖ < tol) :
    rkfBody f t_final tol ((ti, yi), past, h) =
      ((ti, yi), past,
       (if t_final < ti + h then t_final - ti else h) *
         max (1 / 10) ((9 / 10) *
           (tol / ‖rkfY5 f ti yi
               (if t_final < ti + h then t_final - ti else h) -
             rkfY4 f ti yi (if t_final < ti + h then t_final - ti else h)‖) ^
             ((1 : ℝ) / 4))) := by
  simp only [rkfBody]
  rw [if_neg hrej]

lemma rkfLoop_succ_body (f : ℝ → W → W) (t_final tol : ℝ) (fuel : ℕ)
    (s : (ℝ × W) × List (ℝ × W) × ℝ) (hlt : s.1.1 < t_final) :
    rkfLoop f t_final tol (fuel + 1) s.1 s.2.1 s.2.2 =
      rkfLoop f t_final tol fuel (rkfBody f t_final tol s).1
        (rkfBody f t_final tol s).2.1 (rkfBody f t_final tol s).2.2 := by
  obtain ⟨cur, past, h⟩ := s
  conv_lhs => rw [rkfLoop]
  rw [if_pos hlt]
  simp only [rkfBody]
  by_cases herr : ‖rkfY5 f cur.1 cur.2
      (if t_final < cur.1 + h then t_final - cur.1 else h) -
    rkfY4 f cur.1 cur.2
      (if t_final < cur.1 + h then t_final - cur.1 else h)‖ < tol
  · rw [if_pos herr, if_pos herr]
  · rw [if_neg herr, if_neg herr]

lemma rkfLoop_exit_eq (f : ℝ → W → W) (t_final tol : ℝ) (fuel : ℕ)
    (s : (ℝ × W) × List (ℝ × W) × ℝ) (hge : ¬ s.1.1 < t_final) :
    rkfLoop f t_final tol (fuel + 1) s.1 s.2.1 s.2.2 =
      some ((s.1 :: s.2.1).reverse) := by
  obtain ⟨cur, past, h⟩ := s
  rw [rkfLoop, if_neg hge]

lemma rkfLoop_of_iterate (f : ℝ → W → W) (t_final tol : ℝ) :
    ∀ (K : ℕ) (s : (ℝ × W) × List (ℝ × W) × ℝ),
      (∀ j, j < K → ((rkfBody f t_final tol)^[j] s).1.1 < t_final) →
      ¬ ((rkfBody f t_final tol)^[K] s).1.1 < t_final →
      rkfLoop f t_final tol (K + 1) s.1 s.2.1 s.2.2 =
        some ((((rkfBody f t_final tol)^[K] s).1 ::
          ((rkfBody f t_final tol)^[K] s).2.1).reverse) := by
  intro K
  induction K with
  | zero =>
    intro s hall hexit
    simpa using rkfLoop_exit_eq f t_final tol 0 s (by simpa using hexit)
  | succ K ih =>
    intro s hall hexit
    have h0 : s.1.1 < t_final := by simpa using hall 0 (Nat.succ_pos K)
    rw [rkfLoop_succ_body f t_final tol (K + 1) s h0]
    have hall2 : ∀ j, j < K →
        ((rkfBody f t_final tol)^[j] (rkfBody f t_final tol s)).1.1 < t_final := by
      intro j hj
      have := hall (j + 1) (by omega)
      rwa [Function.iterate_succ_apply] at this
    have hexit2 : ¬ ((rkfBody f t_final tol)^[K] (rkfBody f t_final tol s)).1.1 <
        t_final := by
      rw [← Function.iterate_succ_apply]
      exact hexit
    have := ih (rkfBody f t_final tol s) hall2 hexit2
    rw [this, ← Function.iterate_succ_apply]

lemma rkfY5_sub_rkfY4 (f : ℝ → W → W) (ti : ℝ) (yi : W) (h : ℝ) :
    rkfY5 f ti yi h - rkfY4 f ti yi h =
      h • ((16 / 135 - 25 / 216 : ℝ) • rkfk1 f ti yi h +
        (6656 / 12825 - 1408 / 2565 : ℝ) • rkfk3 f ti yi h +
        (28561 / 56430 - 2197 / 4104 : ℝ) • rkfk4 f ti yi h +
        (1 / 5 - 9 / 50 : ℝ) • rkfk5 f ti yi h +
        (2 / 55 : ℝ) • rkfk6 f ti yi h) := by
  rw [rkfY5, rkfY4]
  module

lemma errC_nonneg : 0 ≤ errC := by
  unfold errC
  positivity

lemma rkfErr_le (f : ℝ → W → W) (M : ℝ) (hM : ∀ t y, ‖f t y‖ ≤ M)
    (ti : ℝ) (yi : W) (h : ℝ) (hh : 0 ≤ h) :
    ‖rkfY5 f ti yi h - rkfY4 f ti yi h‖ ≤ h * (errC * M) := by
  have hsmul : ∀ (c : ℝ) (k : W), ‖k‖ ≤ M → ‖c • k‖ ≤ |c| * M := by
    intro c k hk
    rw [norm_smul, Real.norm_eq_abs]
    exact mul_le_mul_of_nonneg_left hk (abs_nonneg c)
  have h1 : ‖(16 / 135 - 25 / 216 : ℝ) • rkfk1 f ti yi h‖ ≤
      |(16 / 135 - 25 / 216 : ℝ)| * M := hsmul _ _ (hM _ _)
  have h3 : ‖(6656 / 12825 - 1408 / 2565 : ℝ) • rkfk3 f ti yi h‖ ≤
      |(6656 / 12825 - 1408 / 2565 : ℝ)| * M := hsmul _ _ (hM _ _)
  have h4 : ‖(28561 / 56430 - 2197 / 4104 : ℝ) • rkfk4 f ti yi h‖ ≤
      |(28561 / 56430 - 2197 / 4104 : ℝ)| * M := hsmul _ _ (hM _ _)
  have h5 : ‖(1 / 5 - 9 / 50 : ℝ) • rkfk5 f ti yi h‖ ≤
      |(1 / 5 - 9 / 50 : ℝ)| * M := hsmul _ _ (hM _ _)
  have h6 : ‖(2 / 55 : ℝ) • rkfk6 f ti yi h‖ ≤ |(2 / 55 : ℝ)| * M :=
    hsmul _ _ (hM _ _)
  have hsum : ‖(16 / 135 - 25 / 216 : ℝ) • rkfk1 f ti yi h +
      (6656 / 12825 - 1408 / 2565 : ℝ) • rkfk3 f ti yi h +
      (28561 / 56430 - 2197 / 4104 : ℝ) • rkfk4 f ti yi h +
      (1 / 5 - 9 / 50 : ℝ) • rkfk5 f ti yi h +
      (2 / 55 : ℝ) • rkfk6 f ti yi h‖ ≤ errC * M := by
    calc ‖(16 / 135 - 25 / 216 : ℝ) • rkfk1 f ti yi h +
        (6656 / 12825 - 1408 / 2565 : ℝ) • rkfk3 f ti yi h +
        (28561 / 56430 - 2197 / 4104 : ℝ) • rkfk4 f ti yi h +
        (1 / 5 - 9 / 50 : ℝ) • rkfk5 f ti yi h +
        (2 / 55 : ℝ) • rkfk6 f ti yi h‖ ≤
        ‖(16 / 135 - 25 / 216 : ℝ) • rkfk1 f ti yi h +
          (6656 / 12825 - 1408 / 2565 : ℝ) • rkfk3 f ti yi h +
          (28561 / 56430 - 2197 / 4104 : ℝ) • rkfk4 f ti yi h +
          (1 / 5 - 9 / 50 : ℝ) • rkfk5 f ti yi h‖ +
        ‖(2 / 55 : ℝ) • rkfk6 f ti yi h‖ := norm_add_le _ _
      _ ≤ (‖(16 / 135 - 25 / 216 : ℝ) • rkfk1 f ti yi h +
            (6656 / 12825 - 1408 / 2565 : ℝ) • rkfk3 f ti yi h +
            (28561 / 56430 - 2197 / 4104 : ℝ) • rkfk4 f ti yi h‖ +
          ‖(1 / 5 - 9 / 50 : ℝ) • rkfk5 f ti yi h‖) +
          ‖(2 / 55 : ℝ) • rkfk6 f ti yi h‖ :=
        add_le_add_right (norm_add_le _ _) _
      _ ≤ ((‖(16 / 135 - 25 / 216 : ℝ) • rkfk1 f ti yi h +
             (6656 / 12825 - 1408 / 2565 : ℝ) • rkfk3 f ti yi h‖ +
            ‖(28561 / 56430 - 2197 / 4104 : ℝ) • rkfk4 f ti yi h‖) +
          ‖(1 / 5 - 9 / 50 : ℝ) • rkfk5 f ti yi h‖) +
          ‖(2 / 55 : ℝ) • rkfk6 f ti yi h‖ :=
        add_le_add_right (add_le_add_right (norm_add_le _ _) _) _
      _ ≤ (((‖(16 / 135 - 25 / 216 : ℝ) • rkfk1 f ti yi h‖ +
             ‖(6656 / 12825 - 1408 / 2565 : ℝ) • rkfk3 f ti yi h‖) +
            ‖(28561 / 56430 - 2197 / 4104 : ℝ) • rkfk4 f ti yi h‖) +
          ‖(1 / 5 - 9 / 50 : ℝ) • rkfk5 f ti yi h‖) +
          ‖(2 / 55 : ℝ) • rkfk6 f ti yi h‖ :=
        add_le_add_right (add_le_add_right (add_le_add_right (norm_add_le _ _) _) _) _
      _ ≤ (((|(16 / 135 - 25 / 216 : ℝ)| * M +
             |(6656 / 12825 - 1408 / 2565 : ℝ)| * M) +
            |(28561 / 56430 - 2197 / 4104 : ℝ)| * M) +
          |(1 / 5 - 9 / 50 : ℝ)| * M) + |(2 / 55 : ℝ)| * M :=
        add_le_add (add_le_add (add_le_add (add_le_add h1 h3) h4) h5) h6
      _ = errC * M := by simp only [errC]; ring
  rw [rkfY5_sub_rkfY4, norm_smul, Real.norm_eq_abs, abs_of_nonneg hh]
  exact mul_le_mul_of_nonneg_left hsum hh

lemma bound_nonneg (f : ℝ → W → W) (M : ℝ) (hM : ∀ t y, ‖f t y‖ ≤ M) :
    0 ≤ M :=
  le_trans (norm_nonneg (f 0 0)) (hM 0 0)

lemma rkfHstar_pos (tol M : ℝ) (htol : 0 < tol) (hM0 : 0 ≤ M) :
    0 < rkfHstar tol M := by
  have := errC_nonneg
  exact div_pos htol (by nlinarith)

lemma rkf_accept_of_small (f : ℝ → W → W) (tol M : ℝ)
    (hM : ∀ t y, ‖f t y‖ ≤ M) (htol : 0 < tol) (ti : ℝ) (yi : W) (h : ℝ)
    (h0 : 0 < h) (hsmall : h ≤ rkfHstar tol M) :
    ‖rkfY5 f ti yi h - rkfY4 f ti yi h‖ < tol := by
  have hM0 : 0 ≤ M := bound_nonneg f M hM
  have hC := errC_nonneg
  have h1 : ‖rkfY5 f ti yi h - rkfY4 f ti yi h‖ ≤ h * (errC * M) :=
    rkfErr_le f M hM ti yi h h0.le
  have h2 : h * (errC * M) ≤ rkfHstar tol M * (errC * M) :=
    mul_le_mul_of_nonneg_right hsmall (by positivity)
  have h3 : rkfHstar tol M * (errC * M) < tol := by
    rw [rkfHstar, div_mul_eq_mul_div, div_lt_iff (by nlinarith)]
    have := mul_lt_mul_of_pos_left (lt_add_one (errC * M)) htol
    linarith
  linarith

lemma one_le_rkfGrow (tol err : ℝ) (htol : 0 < tol) (hlt : err < tol) :
    1 ≤ (if 0 < err then min 2 ((tol / err) ^ ((1 : ℝ) / 4)) else 2) := by
  split_ifs with hpos
  · refine le_min (by norm_num) ?_
    refine Real.one_le_rpow ?_ (by norm_num)
    rw [le_div_iff hpos]
    linarith
  · norm_num

lemma rkfShrink_le_nine_tenths (tol err : ℝ) (htol : 0 < tol)
    (hge : tol ≤ err) :
    max (1 / 10 : ℝ) ((9 / 10) * (tol / err) ^ ((1 : ℝ) / 4)) ≤ 9 / 10 := by
  have herr : 0 < err := lt_of_lt_of_le htol hge
  refine max_le (by norm_num) ?_
  have hr : (tol / err) ^ ((1 : ℝ) / 4) ≤ 1 :=
    Real.rpow_le_one (by positivity)
      (by rw [div_le_one herr]; exact hge) (by norm_num)
  nlinarith [Real.rpow_nonneg (div_nonneg htol.le herr.le) ((1 : ℝ) / 4)]

lemma rkf_accept_within (f : ℝ → W → W) (t_final tol M : ℝ)
    (hM : ∀ t y, ‖f t y‖ ≤ M) (htol : 0 < tol) :
    ∀ (j : ℕ) (ti : ℝ) (yi : W) (past : List (ℝ × W)) (h : ℝ),
      0 < h → ti < t_final →
      min h (t_final - ti) ≤ rkfHstar tol M * ((10 : ℝ) / 9) ^ j →
      ∃ (k : ℕ) (hk : ℝ),
        (∀ m, m ≤ k → ∃ hm, (rkfBody f t_final tol)^[m] ((ti, yi), past, h) =
          ((ti, yi), past, hm)) ∧
        (rkfBody f t_final tol)^[k] ((ti, yi), past, h) = ((ti, yi), past, hk) ∧
        0 < hk ∧ (hk = h ∨ rkfHstar tol M / 10 < hk) ∧
        ‖rkfY5 f ti yi (if t_final < ti + hk then t_final - ti else hk) -
          rkfY4 f ti yi (if t_final < ti + hk then t_final - ti else hk)‖ <
            tol := by
  intro j
  induction j with
  | zero =>
    intro ti yi past h h0 hlt hsm
    rw [pow_zero, mul_one] at hsm
    refine ⟨0, h, ?_, rfl, h0, Or.inl rfl, ?_⟩
    · intro m hm
      have hm0 : m = 0 := Nat.le_zero.mp hm
      subst hm0
      exact ⟨h, rfl⟩
    · rw [clamp_eq_min]
      exact rkf_accept_of_small f tol M hM htol ti yi _
        (lt_min h0 (by linarith)) hsm
  | succ j ih =>
    intro ti yi past h h0 hlt hsm
    by_cases hacc : ‖rkfY5 f ti yi
        (if t_final < ti + h then t_final - ti else h) -
      rkfY4 f ti yi (if t_final < ti + h then t_final - ti else h)‖ < tol
    · refine ⟨0, h, ?_, rfl, h0, Or.inl rfl, hacc⟩
      intro m hm
      have hm0 : m = 0 := Nat.le_zero.mp hm
      subst hm0
      exact ⟨h, rfl⟩
    · have h2min : (if t_final < ti + h then t_final - ti else h) =
          min h (t_final - ti) := clamp_eq_min t_final ti h
      have h2pos : 0 < (if t_final < ti + h then t_final - ti else h) := by
        rw [h2min]
        exact lt_min h0 (by linarith)
      have hbig : rkfHstar tol M <
          (if t_final < ti + h then t_final - ti else h) := by
        by_contra hcon
        push_neg at hcon
        exact hacc (rkf_accept_of_small f tol M hM htol ti yi _ h2pos hcon)
      have herrge : tol ≤ ‖rkfY5 f ti yi
          (if t_final < ti + h then t_final - ti else h) -
        rkfY4 f ti yi (if t_final < ti + h then t_final - ti else h)‖ :=
        not_lt.mp hacc
      have hshr : max (1 / 10 : ℝ) ((9 / 10) *
          (tol / ‖rkfY5 f ti yi
              (if t_final < ti + h then t_final - ti else h) -
            rkfY4 f ti yi (if t_final < ti + h then t_final - ti else h)‖) ^
            ((1 : ℝ) / 4)) ≤ 9 / 10 :=
        rkfShrink_le_nine_tenths tol _ htol herrge
      have h110 : (1 / 10 : ℝ) ≤ max (1 / 10 : ℝ) ((9 / 10) *
          (tol / ‖rkfY5 f ti yi
              (if t_final < ti + h then t_final - ti else h) -
            rkfY4 f ti yi (if t_final < ti + h then t_final - ti else h)‖) ^
            ((1 : ℝ) / 4)) := le_max_left _ _
      have hnew_pos : 0 < (if t_final < ti + h then t_final - ti else h) *
          max (1 / 10 : ℝ) ((9 / 10) *
            (tol / ‖rkfY5 f ti yi
                (if t_final < ti + h then t_final - ti else h) -
              rkfY4 f ti yi
                (if t_final < ti + h then t_final - ti else h)‖) ^
              ((1 : ℝ) / 4)) :=
        mul_pos h2pos (lt_of_lt_of_le (by norm_num) h110)
      have hnew_big : rkfHstar tol M / 10 <
          (if t_final < ti + h then t_final - ti else h) *
          max (1 / 10 : ℝ) ((9 / 10) *
            (tol / ‖rkfY5 f ti yi
                (if t_final < ti + h then t_final - ti else h) -
              rkfY4 f ti yi
                (if t_final < ti + h then t_final - ti else h)‖) ^
              ((1 : ℝ) / 4)) := by
        have step1 : rkfHstar tol M / 10 <
            (if t_final < ti + h then t_final - ti else h) * (1 / 10) := by
          nlinarith
        refine lt_of_lt_of_le step1 (mul_le_mul_of_nonneg_left h110 h2pos.le)
      have hnew_decay : min ((if t_final < ti + h then t_final - ti else h) *
          max (1 / 10 : ℝ) ((9 / 10) *
            (tol / ‖rkfY5 f ti yi
                (if t_final < ti + h then t_final - ti else h) -
              rkfY4 f ti yi
                (if t_final < ti + h then t_final - ti else h)‖) ^
              ((1 : ℝ) / 4))) (t_final - ti) ≤
          rkfHstar tol M * ((10 : ℝ) / 9) ^ j := by
        refine le_trans (min_le_left _ _) ?_
        refine le_trans (mul_le_mul_of_nonneg_left hshr h2pos.le) ?_
        rw [h2min]
        have := mul_le_mul_of_nonneg_right hsm (by norm_num : (0 : ℝ) ≤ 9 / 10)
        calc min h (t_final - ti) * (9 / 10) ≤
            rkfHstar tol M * ((10 : ℝ) / 9) ^ (j + 1) * (9 / 10) := this
          _ = rkfHstar tol M * ((10 : ℝ) / 9) ^ j := by
            rw [pow_succ]
            ring
      obtain ⟨k, hk, hall, hkeq, hkpos, hkdisj, hkacc⟩ :=
        ih ti yi past _ hnew_pos hlt hnew_decay
      have hbody : rkfBody f t_final tol ((ti, yi), past, h) =
          ((ti, yi), past,
           (if t_final < ti + h then t_final - ti else h) *
             max (1 / 10 : ℝ) ((9 / 10) *
               (tol / ‖rkfY5 f ti yi
                   (if t_final < ti + h then t_final - ti else h) -
                 rkfY4 f ti yi
                   (if t_final < ti + h then t_final - ti else h)‖) ^
                 ((1 : ℝ) / 4))) :=
        rkfBody_reject_eq f t_final tol ti yi past h hacc
      refine ⟨k + 1, hk, ?_, ?_, hkpos, Or.inr ?_, hkacc⟩
      · intro m hm
        match m with
        | 0 => exact ⟨h, rfl⟩
        | m' + 1 =>
          rw [Function.iterate_succ_apply, hbody]
          exact hall m' (by omega)
      · rw [Function.iterate_succ_apply, hbody]
        exact hkeq
      · rcases hkdisj with heq | hgt
        · rw [heq]
          exact hnew_big
        · exact hgt

lemma rkf_reaches_t_final (f : ℝ → W → W) (t_final tol M δ : ℝ)
    (hM : ∀ t y, ‖f t y‖ ≤ M) (htol : 0 < tol) (hδ : 0 < δ)
    (hδs : δ ≤ rkfHstar tol M / 10) :
    ∀ (n : ℕ) (ti : ℝ) (yi : W) (past : List (ℝ × W)) (h : ℝ),
      δ ≤ h → ti < t_final → t_final - ti ≤ (n : ℝ) * δ →
      ∃ K : ℕ,
        (∀ j, j < K →
          ((rkfBody f t_final tol)^[j] ((ti, yi), past, h)).1.1 < t_final) ∧
        ((rkfBody f t_final tol)^[K] ((ti, yi), past, h)).1.1 = t_final := by
  intro n
  induction n with
  | zero =>
    intro ti yi past h hδh hlt hb
    exfalso
    push_cast at hb
    linarith
  | succ n ih =>
    intro ti yi past h hδh hlt hb
    push_cast at hb
    have h0 : 0 < h := lt_of_lt_of_le hδ hδh
    have hstar_pos : 0 < rkfHstar tol M :=
      rkfHstar_pos tol M htol (bound_nonneg f M hM)
    obtain ⟨j, hj⟩ := pow_unbounded_of_one_lt (h / rkfHstar tol M)
      (by norm_num : (1 : ℝ) < 10 / 9)
    have hjm : min h (t_final - ti) ≤ rkfHstar tol M * ((10 : ℝ) / 9) ^ j := by
      rw [div_lt_iff hstar_pos] at hj
      refine le_trans (min_le_left _ _) ?_
      calc h ≤ ((10 : ℝ) / 9) ^ j * rkfHstar tol M := hj.le
        _ = rkfHstar tol M * ((10 : ℝ) / 9) ^ j := mul_comm _ _
    obtain ⟨k, hk, hall, hkeq, hkpos, hkdisj, hkacc⟩ :=
      rkf_accept_within f t_final tol M hM htol j ti yi past h h0 hlt hjm
    set h2k := (if t_final < ti + hk then t_final - ti else hk) with hh2k
    set errk := ‖rkfY5 f ti yi h2k - rkfY4 f ti yi h2k‖ with herrk
    have hstep : (rkfBody f t_final tol)^[k + 1] ((ti, yi), past, h) =
        ((ti + h2k, rkfY5 f ti yi h2k), (ti, yi) :: past,
         h2k * (if 0 < errk then min 2 ((tol / errk) ^ ((1 : ℝ) / 4)) else 2)) := by
      rw [Function.iterate_succ_apply', hkeq]
      exact rkfBody_accept_eq f t_final tol ti yi past hk hkacc
    have h2k_pos : 0 < h2k := by
      rw [hh2k, clamp_eq_min]
      exact lt_min hkpos (by linarith)
    have h2k_le : ti + h2k ≤ t_final := by
      rw [hh2k, clamp_eq_min]
      have := min_le_right hk (t_final - ti)
      linarith
    have gk_ge : 1 ≤ (if 0 < errk then min 2 ((tol / errk) ^ ((1 : ℝ) / 4))
        else 2) := one_le_rkfGrow tol errk htol hkacc
    rcases eq_or_lt_of_le h2k_le with hfin | hfin
    · refine ⟨k + 1, ?_, ?_⟩
      · intro j2 hj2
        obtain ⟨hm, hmeq⟩ := hall j2 (by omega)
        rw [hmeq]
        exact hlt
      · rw [hstep]
        exact hfin
    · have h2k_eq : h2k = hk := by
        rw [hh2k, clamp_eq_min]
        rcases min_cases hk (t_final - ti) with ⟨hmeq, _⟩ | ⟨hmeq, hle⟩
        · exact hmeq
        · exfalso
          rw [hh2k, clamp_eq_min, hmeq] at hfin
          linarith
      have hkδ : δ ≤ hk := by
        rcases hkdisj with heq | hgt
        · rw [heq]
          exact hδh
        · linarith
      have hnewδ : δ ≤ h2k * (if 0 < errk then
          min 2 ((tol / errk) ^ ((1 : ℝ) / 4)) else 2) := by
        have : h2k ≤ h2k * (if 0 < errk then
            min 2 ((tol / errk) ^ ((1 : ℝ) / 4)) else 2) :=
          le_mul_of_one_le_right h2k_pos.le gk_ge
        rw [h2k_eq] at this ⊢
        linarith
      obtain ⟨K2, hallK, hKeq⟩ := ih (ti + h2k) (rkfY5 f ti yi h2k)
        ((ti, yi) :: past)
        (h2k * (if 0 < errk then min 2 ((tol / errk) ^ ((1 : ℝ) / 4)) else 2))
        hnewδ hfin (by rw [h2k_eq] at *; linarith)
      refine ⟨K2 + (k + 1), ?_, ?_⟩
      · intro j2 hj2
        by_cases hj2k : j2 ≤ k
        · obtain ⟨hm, hmeq⟩ := hall j2 hj2k
          rw [hmeq]
          exact hlt
        · obtain ⟨j3, rfl⟩ : ∃ j3, j2 = j3 + (k + 1) :=
            ⟨j2 - (k + 1), by omega⟩
          rw [Function.iterate_add_apply, hstep]
          exact hallK j3 (by omega)
      · rw [Function.iterate_add_apply, hstep]
        exact hKeq

/-- C3: for every `tol > 0`, every derivative function bounded in norm by
some `M`, every `t0 < t_final` and every `h_init > 0`, the adaptive RKF45
stepper terminates after finitely many loop iterations (some finite fuel
suffices) and the final element of the returned trajectory has time
exactly `t_final` — by construction through the clamp
`h = t_final - t_i` on overshoot, not by rounding. -/
theorem c3_rkf45_terminates_exactly_at_t_final (f : ℝ → W → W) (t0 : ℝ)
    (y0 : W) (t_final h_init tol M : ℝ) (htol : 0 < tol)
    (hM : ∀ t y, ‖f t y‖ ≤ M) (ht : t0 < t_final) (hh : 0 < h_init) :
    ∃ (fuel : ℕ) (out : List (ℝ × W)) (yend : W),
      rkf45 f t0 y0 t_final h_init tol fuel = some out ∧
      out.getLast? = some (t_final, yend) := by
  have hM0 : 0 ≤ M := bound_nonneg f M hM
  have hstar_pos : 0 < rkfHstar tol M := rkfHstar_pos tol M htol hM0
  have hδ : 0 < min h_init (rkfHstar tol M / 10) := lt_min hh (by linarith)
  obtain ⟨n, hn⟩ := exists_nat_ge ((t_final - t0) / min h_init (rkfHstar tol M / 10))
  have hb : t_final - t0 ≤ (n : ℝ) * min h_init (rkfHstar tol M / 10) := by
    rw [div_le_iff hδ] at hn
    linarith
  obtain ⟨K, hall, hKeq⟩ := rkf_reaches_t_final f t_final tol M
    (min h_init (rkfHstar tol M / 10)) hM htol hδ (min_le_right _ _) n t0 y0 []
    h_init (min_le_left _ _) ht hb
  refine ⟨K + 1,
    ((((rkfBody f t_final tol)^[K] ((t0, y0), [], h_init)).1 ::
      ((rkfBody f t_final tol)^[K] ((t0, y0), [], h_init)).2.1).reverse),
    ((rkfBody f t_final tol)^[K] ((t0, y0), [], h_init)).1.2, ?_, ?_⟩
  · rw [rkf45]
    exact rkfLoop_of_iterate f t_final tol K ((t0, y0), [], h_init) hall
      (by rw [hKeq]; exact lt_irrefl _)
  · rw [List.getLast?_reverse]
    rw [List.head?_cons]
    exact congrArg some (Prod.ext hKeq rfl)

/-- Witness for C3: the hypotheses hold at the concrete input `f = rf0`
(bounded by `M = 0`), `t0 = 0`, `y0 = 0`, `t_final = 1`, `h_init = 1`,
`tol = 1`. -/
theorem c3_rkf45_terminates_exactly_at_t_final_witness :
    ((0 : ℝ) < 1 ∧ (∀ (t y : ℝ), ‖rf0 t y‖ ≤ 0) ∧ (0 : ℝ) < 1 ∧
      (0 : ℝ) < 1) ∧
    ∃ (fuel : ℕ) (out : List (ℝ × ℝ)) (yend : ℝ),
      rkf45 rf0 0 (0 : ℝ) 1 1 1 fuel = some out ∧
      out.getLast? = some (1, yend) :=
  ⟨⟨by norm_num, fun t y => by simp [rf0], by norm_num, by norm_num⟩,
   c3_rkf45_terminates_exactly_at_t_final rf0 0 0 1 1 1 0 (by norm_num)
     (fun t y => by simp [rf0]) (by norm_num) (by norm_num)⟩

end AdaptiveClaims

end OdeSolver
